import Mathlib

/-!
Verification of the GitHub code-search automation tool (`working_UI.py`)
against its natural-language specification.

The Python source is shallowly embedded below:
* JSON values returned by the search API become the inductive type `JVal`;
* the paginated search coroutine `search_github_code` becomes a fuel-indexed
  recursive function over an abstract API oracle (the fuel models the fact
  that the Python `while` loop may in principle retry forever on 403s);
* the export pipeline functions (`save_results_to_csv`,
  `extract_pattern_lines_from_fragment`, `filter_fragments_by_pattern`) become
  pure functions on lists of strings, with a CSV file modelled as its list of
  records (the `csv` module's quoting round-trip is external to this program);
* the cloud-mode organization loop of `main` becomes an event trace.
-/

/-- JSON values, as returned by the search API and manipulated by the script
via `dict.get` and friends. -/
inductive JVal where
  | null
  | boolean (b : Bool)
  | num (n : Int)
  | str (s : String)
  | arr (elems : List JVal)
  | obj (fields : List (String × JVal))

/-- Python `dict.get(key)`: first binding of `k`, `None` (here `none`) when
absent.  API JSON objects have no duplicate keys, so first-binding lookup is
exact. -/
def dictGet (fields : List (String × JVal)) (k : String) : Option JVal :=
  match fields with
  | [] => none
  | (k₂, v) :: rest => if k₂ = k then some v else dictGet rest k

/-- Python `data.get(key)` on a value that may or may not be a dict.  A non-dict
receiver would raise `AttributeError` in Python; the embedded claims only ever
apply this to dict receivers. -/
def jget (v : JVal) (k : String) : Option JVal :=
  match v with
  | JVal.obj fields => dictGet fields k
  | _ => none

/-- Python `data.get(key, default)`. -/
def pyGetD (v : JVal) (k : String) (d : JVal) : JVal :=
  match jget v k with
  | some x => x
  | none => d

/-- Line 401: `item.get("repository", {}).get("owner", {}).get("type") == "Organization"`. -/
def itemOwnerIsOrg (item : JVal) : Bool :=
  match jget (pyGetD (pyGetD item "repository" (JVal.obj [])) "owner" (JVal.obj [])) "type" with
  | some (JVal.str t) => t = "Organization"
  | _ => false

/-- Line 28: max items per page for the search API. -/
def SEARCH_PER_PAGE : Nat := 100

/-- Line 29: default maximum number of search results to fetch. -/
def MAX_SEARCH_RESULTS : Nat := 100

/-- Line 30: initial retry delay (seconds) for secondary rate limits. -/
def RETRY_DELAY_INITIAL : Int := 2

/-- One HTTP response observed by `search_github_code`, together with the
clock readings taken while handling it.  `rateLimited` is a 403 whose
`X-RateLimit-Reset` header parsed to `resetHeader` (absent header → `none`);
`now₁` models the `time.time()` call supplying the header default on line 386
and `now₂` the `time.time()` call in the wait computation on line 387.
`success` is a 2xx JSON body `{items, total_count}` (`total_count` already
defaulted to 0 by `data.get('total_count', 0)` when absent); `httpError` is
any other status, on which `raise_for_status()` raises. -/
inductive ApiResponse where
  | rateLimited (resetHeader : Option Int) (now₁ now₂ : Int)
  | httpError (status : Nat)
  | success (items : List JVal) (total_count : Nat)

/-- The value returned by `search_github_code`, enriched with the observable
request trace: `trace` records `(page, per_page)` for every request issued
(in order) and `waits` records every rate-limit sleep duration (seconds). -/
structure SearchOutcome where
  files : List JVal
  totalCount : Nat
  trace : List (Nat × Nat)
  waits : List Int

/-- An API oracle: given its private state and the request parameters
`page`, `per_page`, it yields a response and a successor state, or `none`
when no response ever arrives (the request hangs / the run is aborted). -/
def Api (σ : Type) : Type := σ → Nat → Nat → Option (σ × ApiResponse)

/-- The body of the `while len(all_files) < max_results` loop of
`search_github_code` (lines 374–408), one fuel unit per loop iteration.
State: `s` the oracle state, `page` the page counter, `all_files` the
accumulator, `lastTotal` the `total_count` of the last successful page
(`none` while `data` is still unbound in Python — returning with it unbound
would raise `NameError`, modelled as `none`), plus the observable trace.
A 403 recomputes the wait and retries without advancing `page` (line 390);
an empty `items` list breaks (line 397); with `repo_scope = "1"` only
Organization-owned items are accumulated (lines 400–404); a page shorter
than `per_page` breaks after accumulating (line 405); otherwise `page`
advances.  On exit the function returns `all_files` and the last page's
`total_count` (line 408). -/
def searchLoop {σ : Type} (api : Api σ) (repo_scope : Option String)
    (max_results : Nat) (fuel : Nat) (s : σ) (page : Nat) (all_files : List JVal)
    (lastTotal : Option Nat) (trace : List (Nat × Nat)) (waits : List Int) :
    Option SearchOutcome :=
  match fuel with
  | 0 => none
  | fuel + 1 =>
    if all_files.length < max_results then
      let per_page := min SEARCH_PER_PAGE (max_results - all_files.length)
      match api s page per_page with
      | none => none
      | some (s₂, ApiResponse.rateLimited resetHeader now₁ now₂) =>
          let reset := resetHeader.getD (now₁ + 60)
          let wait := max (reset - now₂) RETRY_DELAY_INITIAL
          searchLoop api repo_scope max_results fuel s₂ page all_files lastTotal
            (trace ++ [(page, per_page)]) (waits ++ [wait])
      | some (_, ApiResponse.httpError _) => none
      | some (s₂, ApiResponse.success items total_count) =>
          if items.isEmpty then
            some ⟨all_files, total_count, trace ++ [(page, per_page)], waits⟩
          else
            let kept := if repo_scope = some "1" then items.filter itemOwnerIsOrg else items
            let all₂ := all_files ++ kept
            if items.length < per_page then
              some ⟨all₂, total_count, trace ++ [(page, per_page)], waits⟩
            else
              searchLoop api repo_scope max_results fuel s₂ (page + 1) all₂
                (some total_count) (trace ++ [(page, per_page)]) waits
    else
      match lastTotal with
      | some t => some ⟨all_files, t, trace, waits⟩
      | none => none

/-- Function `search_github_code(session, api_url, query, max_results, repo_scope)`:
run the pagination loop from page 1 with an empty accumulator.  `api`/`s₀`
stand for the session and endpoint, `fuel` bounds the number of loop
iterations considered (the Python loop is unbounded). -/
def search_github_code {σ : Type} (api : Api σ) (s₀ : σ) (max_results : Nat)
    (repo_scope : Option String) (fuel : Nat) : Option SearchOutcome :=
  searchLoop api repo_scope max_results fuel s₀ 1 [] none [] []

/-- A well-behaved mock API serving a fixed item list sequentially: each
request is answered with the next `per_page` items (fewer when the list runs
out), and a constant `total_count` of `T`.  No rate limiting, no errors. -/
def seqApi (T : Nat) : Api (List JVal) :=
  fun remaining _page per_page =>
    some (remaining.drop per_page, ApiResponse.success (remaining.take per_page) T)

/-- A scripted mock API: responses are consumed in order, one per request;
an exhausted script means no response ever arrives. -/
def scriptApi : Api (List ApiResponse) :=
  fun script _page _per_page =>
    match script with
    | [] => none
    | r :: rest => some (rest, r)

/-- The request trace `search_github_code` produces against `seqApi` from a
state needing `m` more results while `n` items remain on the server, starting
at page `p`: request `(p, min 100 m)`, and continue onto the next page only
when the server could fill the page completely. -/
def seqTrace (p m n : Nat) : List (Nat × Nat) :=
  if _hm : m = 0 then []
  else
    (p, min 100 m) ::
      (if n < min 100 m then [] else seqTrace (p + 1) (m - min 100 m) (n - min 100 m))
termination_by m
decreasing_by
  omega

/-- Raw text matches of a result item: `item.get("text_matches", [])`
(lines 546).  The API always supplies an array here; a missing key yields
the `[]` default. -/
def getTextMatches (item : JVal) : List JVal :=
  match jget item "text_matches" with
  | some (JVal.arr l) => l
  | _ => []

/-- Python `fragment_text.replace("\r", "")` (line 549): remove every
carriage return. -/
def stripCR (s : String) : String := String.mk (s.data.filter (fun c => c != '\x0d'))

/-- Python `str.isspace` characters relevant to `.strip()` (ASCII range). -/
def isPySpace (c : Char) : Bool :=
  c == ' ' || c == '\t' || c == '\n' || c == '\x0d' || c == '\x0b' || c == '\x0c'

/-- Python `str.strip()`: drop leading and trailing whitespace. -/
def pyStrip (s : String) : String :=
  String.mk (((s.data.dropWhile isPySpace).reverse.dropWhile isPySpace).reverse)

/-- Python `str.lower()` (ASCII case mapping, which the claims exercise). -/
def pyLower (s : String) : String := String.mk (s.data.map Char.toLower)

/-- Python `sep.join(strings)`. -/
def pyJoin (sep : String) : List String → String
  | [] => ""
  | [x] => x
  | x :: rest => x ++ sep ++ pyJoin sep rest

/-- The fragment-joining loop of `main` (lines 544–550): for each text match
take `tm.get("fragment")`; when it is truthy (a present, non-empty string —
API fragments are strings) append its carriage-return-stripped, trimmed form;
keep the loop's append order.  Lean's `String.trim` models Python `.strip()`
(they agree on the ASCII whitespace the claims exercise). -/
def extractFragmentsGo (fragments : List String) : List JVal → List String
  | [] => fragments
  | tm :: rest =>
    match jget tm "fragment" with
    | some (JVal.str s) =>
        if s = "" then extractFragmentsGo fragments rest
        else extractFragmentsGo (fragments ++ [pyStrip (stripCR s)]) rest
    | _ => extractFragmentsGo fragments rest

/-- Line 550: `item["fragment"] = "\n---\n".join(fragments)`. -/
def itemFragment (item : JVal) : String :=
  pyJoin "\n---\n" (extractFragmentsGo [] (getTextMatches item))

/-- Modelled from the claim's wording (not from the source), for comparison:
strip carriage returns, trim, THEN skip fragments that are empty (so a
whitespace-only raw fragment is skipped), and join the survivors. -/
def extractFragmentsClaimed (tms : List JVal) : List String :=
  (tms.filterMap fun tm =>
    match jget tm "fragment" with
    | some (JVal.str s) => some (pyStrip (stripCR s))
    | _ => none).filter (fun s => s != "")

/-- Fragment field as the claim describes it (see `extractFragmentsClaimed`). -/
def itemFragmentClaimed (item : JVal) : String :=
  pyJoin "\n---\n" (extractFragmentsClaimed (getTextMatches item))

/-- Closed form of what the code actually keeps: a fragment survives exactly
when it is present and non-empty BEFORE stripping/trimming. -/
def extractFragmentsAmended (tms : List JVal) : List String :=
  tms.filterMap fun tm =>
    match jget tm "fragment" with
    | some (JVal.str s) => if s = "" then none else some (pyStrip (stripCR s))
    | _ => none

/-- Substring test on character lists: the needle is a prefix of some suffix
of the haystack.  Models Python's `in` operator on strings. -/
def listContainsChars (needle : List Char) : List Char → Bool
  | [] => needle.isEmpty
  | c :: rest => needle.isPrefixOf (c :: rest) || listContainsChars needle rest

/-- Python `needle in hay` for strings. -/
def pyIn (needle hay : String) : Bool := listContainsChars needle.data hay.data

/-- Accumulator walk behind `splitlines`: `acc` holds the current line
reversed; a newline emits it, end of input emits it only when non-empty
(Python emits no trailing empty line after a final newline). -/
def splitlinesAux (acc : List Char) : List Char → List String
  | [] => if acc.isEmpty then [] else [String.mk acc.reverse]
  | c :: rest =>
      if c = '\n' then String.mk acc.reverse :: splitlinesAux [] rest
      else splitlinesAux (c :: acc) rest

/-- Python `str.splitlines()` for the line separators the pipeline produces
(`"\n"`; carriage returns were already stripped upstream). -/
def splitlines (s : String) : List String := splitlinesAux [] s.data

/-- The accumulator loop of `extract_pattern_lines_from_fragment`
(lines 584–586): keep a line when the lowered pattern occurs in the lowered
line, appending the STRIPPED line. -/
def extractPatternLinesGo (pattern : String) (matching_lines : List String) :
    List String → List String
  | [] => matching_lines
  | line :: rest =>
      if pyIn (pyLower pattern) (pyLower line) then
        extractPatternLinesGo pattern (matching_lines ++ [pyStrip line]) rest
      else
        extractPatternLinesGo pattern matching_lines rest

/-- Function `extract_pattern_lines_from_fragment(fragment, pattern)`
(lines 580–587). -/
def extract_pattern_lines_from_fragment (fragment pattern : String) : List String :=
  extractPatternLinesGo pattern [] (splitlines fragment)

/-- A CSV file is modelled as its list of records (the `csv` module's
quoting/escaping round-trips each field and is external to this program).
`csv.DictReader`'s fieldnames: the header record, `[]` when the file is
empty (`reader.fieldnames` is `None`). -/
def csvFieldnames (file : List (List String)) : List String :=
  file.head?.getD []

/-- Rows a `csv.DictReader` yields: each non-header record zipped with the
fieldnames. -/
def csvRows (file : List (List String)) : List (List (String × String)) :=
  (file.drop 1).map (fun record => (csvFieldnames file).zip record)

/-- Python `row.get(key, default)` on a reader row. -/
def rowGet (row : List (String × String)) (k d : String) : String :=
  match row.lookup k with
  | some v => v
  | none => d

/-- The row loop of `filter_fragments_by_pattern` (lines 596–601): for every
input row and every matching line of its fragment, emit the row's cells in
fieldname order followed by the matching line. -/
def filterRowsGo (fieldnames : List String) (pattern : String) :
    List (List (String × String)) → List (List String)
  | [] => []
  | row :: rest =>
      (extract_pattern_lines_from_fragment (rowGet row "fragment" "") pattern).map
        (fun line => fieldnames.map (fun col => rowGet row col "") ++ [line])
      ++ filterRowsGo fieldnames pattern rest

/-- Function `filter_fragments_by_pattern(input_file, output_file, pattern)`
(lines 590–614), returning the records written to the output file.  `input`
is `none` when opening/parsing the input file raises (the `except` branch
sets `fieldnames = []`, `output_rows = []`); the header
`fieldnames + ["matching_line"]` is always written. -/
def filter_fragments_by_pattern (input : Option (List (List String)))
    (pattern : String) : List (List String) :=
  match input with
  | none => [["matching_line"]]
  | some file =>
      (csvFieldnames file ++ ["matching_line"])
        :: filterRowsGo (csvFieldnames file) pattern (csvRows file)

/-- The key loop of `get_nested_value` (lines 621–628): walk the dotted path;
a non-dict intermediate (including `None` from a missing key) yields `None`. -/
def nestedGo : Option JVal → List String → Option JVal
  | d, [] => d
  | some (JVal.obj fields), k :: ks => nestedGo (dictGet fields k) ks
  | _, _ :: _ => none

/-- Python `path.split(".")`: dot-splitting with empty pieces kept. -/
def splitOnDotAux (acc : List Char) : List Char → List String
  | [] => [String.mk acc.reverse]
  | c :: rest =>
      if c = '.' then String.mk acc.reverse :: splitOnDotAux [] rest
      else splitOnDotAux (c :: acc) rest

/-- Function `get_nested_value(data, path)` inside `save_results_to_csv`. -/
def get_nested_value (data : JVal) (path : String) : Option JVal :=
  nestedGo (some data) (splitOnDotAux [] path.data)

/-- Python `str(value)` as the `csv` writer applies it to a cell value
(container reprs abbreviated; the claims only exercise scalars). -/
def pyStr : JVal → String
  | JVal.null => "None"
  | JVal.boolean true => "True"
  | JVal.boolean false => "False"
  | JVal.num n => toString n
  | JVal.str s => s
  | JVal.arr _ => "[...]"
  | JVal.obj _ => "\x7b...\x7d"

/-- Cell written by `csv.writer` for a resolved value: `None` (an
unresolvable field) becomes the empty string. -/
def csvCell (v : Option JVal) : String :=
  match v with
  | none => ""
  | some x => pyStr x

/-- The `writer.writerow` loop of `save_results_to_csv` (lines 638–640). -/
def writeRowsGo (columns : List String) : List JVal → List (List String)
  | [] => []
  | item :: rest =>
      (columns.map fun col => csvCell (get_nested_value item col))
        :: writeRowsGo columns rest

/-- Function `save_results_to_csv(results, columns, filename)` (lines
616–641), returning the records written: the header then one row per
result. -/
def save_results_to_csv (results : List JVal) (columns : List String) :
    List (List String) :=
  columns :: writeRowsGo columns results

/-- Lines 530–540: the fixed column list of the full export. -/
def gh_code_search_columns : List String :=
  ["html_url", "name", "path", "repository.fork", "repository.html_url",
   "repository.name", "repository.owner.type", "repository.owner.login",
   "fragment"]

/-- Observable events of the cloud branch of `main`: an organization's
search completing (with the fetched item count and the API total), and a
write appended to `Search_Summary.txt`. -/
inductive RunEvent where
  | orgSearchCompleted (org : String) (fetched : Nat) (total : Nat)
  | summaryWrite (line : String)
deriving DecidableEq

/-- Line 472: the per-organization summary line. -/
def orgSummaryLine (org : String) (total : Nat) : String :=
  "Organization: " ++ org ++ ", Occurrences Found: " ++ toString total ++ "\n"

/-- The per-organization loop (lines 454–475): each organization's search
completes and its summary line is appended before the next organization is
touched.  `searchFn org` abstracts the awaited
`search_github_code(session, api_url, org_query, ...)` call as the
`(org_results, total_count)` it returns. -/
def cloudOrgLoop (searchFn : String → List JVal × Nat) : List String → List RunEvent
  | [] => []
  | org :: rest =>
      RunEvent.orgSearchCompleted org (searchFn org).1.length (searchFn org).2
        :: RunEvent.summaryWrite (orgSummaryLine org (searchFn org).2)
        :: cloudOrgLoop searchFn rest

/-- Line 466: `results.extend(org_results)` across the organization loop. -/
def cloudResults (searchFn : String → List JVal × Nat) : List String → List JVal
  | [] => []
  | org :: rest => (searchFn org).1 ++ cloudResults searchFn rest

/-- Lines 482–489: the configuration block appended after the organization
loop.  Note the hardcoded scope description and the absence of any
timestamp or total-occurrence line. -/
def cloudConfigLines (pattern file_type : String) (fetched : Nat) : List String :=
  ["\nSearch Configuration:\n",
   "Search Pattern: " ++ pattern ++ "\n",
   "File Types: " ++ (if file_type = "" then "All" else file_type) ++ "\n",
   "GitHub Instance: cloud (GitHub Cloud)\n",
   "Repository Scope: Organization Repositories only\n",
   "Total Results Fetched: " ++ toString fetched ++ "\n"]

/-- Event trace of the cloud branch of `main`: the organization loop's
events followed by the configuration writes. -/
def cloudRunTrace (searchFn : String → List JVal × Nat) (orgs : List String)
    (pattern file_type : String) : List RunEvent :=
  cloudOrgLoop searchFn orgs
    ++ (cloudConfigLines pattern file_type
          (cloudResults searchFn orgs).length).map RunEvent.summaryWrite

/-- Scope selection of `get_github_instance` (lines 306–344): choice "1"
(cloud) forces `repo_scope = "2"` without consulting the user; choice "2"
(on-prem) uses the separately prompted scope answer. -/
def get_github_instance_scope (instance_choice : String)
    (on_prem_scope_choice : String) : String × String :=
  if instance_choice = "1" then ("cloud", "2") else ("on_prem", on_prem_scope_choice)

/-- Line 517: the scope description the ON-PREM branch derives from the
actually selected scope (used here to name what scope value "2" means). -/
def onPremScopeDesc (repo_scope : String) : String :=
  if repo_scope = "1" then "Organization Repositories only"
  else "All Repositories including User Repositories"

/-- Search-result item owned by a repository owner of type `t` (witness
input). -/
def ownerItem (t : String) (i : Nat) : JVal :=
  JVal.obj [("repository", JVal.obj [("owner", JVal.obj [("type", JVal.str t)])]),
            ("id", JVal.num (Int.ofNat i))]

/-- First mock page for the OrgOnly witness: six Organization-owned and four
User-owned items. -/
def c2Items1 : List JVal :=
  [ownerItem "Organization" 0, ownerItem "Organization" 1, ownerItem "Organization" 2,
   ownerItem "Organization" 3, ownerItem "Organization" 4, ownerItem "Organization" 5,
   ownerItem "User" 6, ownerItem "User" 7, ownerItem "User" 8, ownerItem "User" 9]

/-- Second mock page for the OrgOnly witness: one of each owner type. -/
def c2Items2 : List JVal := [ownerItem "Organization" 10, ownerItem "User" 11]

/-- Result item with a normal fragment and a whitespace-only fragment (the
counterexample input for the fragment-extraction claim). -/
def c4Item : JVal :=
  JVal.obj [("text_matches", JVal.arr
    [JVal.obj [("fragment", JVal.str "a")],
     JVal.obj [("fragment", JVal.str " ")]])]

/-- Result record with only a `name` field (round-trip witness input); all
other declared columns are unresolvable. -/
def c7Item : JVal := JVal.obj [("name", JVal.str "f.py")]

/-! ## Helper lemmas -/

/-- With no results still needed, `seqTrace` is empty (the loop exits before
issuing a request). -/
theorem seqTrace_zero (p n : Nat) : seqTrace p 0 n = [] := by
  rw [seqTrace]
  simp

/-- With a short server (fewer items left than the page size), exactly one
further request happens. -/
theorem seqTrace_stop (p m n : Nat) (hm : m ≠ 0) (hn : n < min 100 m) :
    seqTrace p m n = [(p, min 100 m)] := by
  rw [seqTrace]
  rw [dif_neg hm, if_pos hn]

/-- With a full page available, the loop requests it and continues on the
next page with the remaining need. -/
theorem seqTrace_cont (p m n : Nat) (hm : m ≠ 0) (hn : ¬ n < min 100 m) :
    seqTrace p m n = (p, min 100 m) :: seqTrace (p + 1) (m - min 100 m) (n - min 100 m) := by
  rw [seqTrace]
  rw [dif_neg hm, if_neg hn]

/-- Main pagination invariant: against the sequential mock with `m` results
still needed and `n` items left on the server, the loop returns the next
`min m n` items, the mock total, and the `seqTrace` request trace. -/
theorem searchLoop_seqApi (T M : Nat) :
    ∀ (fuel : Nat) (rem : List JVal) (p : Nat) (F : List JVal) (lt : Option Nat)
      (tr : List (Nat × Nat)) (ws : List Int),
      F.length < M → M - F.length < fuel →
      searchLoop (seqApi T) none M fuel rem p F lt tr ws =
        some ⟨F ++ rem.take (min (M - F.length) rem.length), T,
              tr ++ seqTrace p (M - F.length) rem.length, ws⟩ := by
  intro fuel
  induction fuel with
  | zero => intro rem p F lt tr ws hF hfuel; omega
  | succ fuel ih =>
    intro rem p F lt tr ws hF hfuel
    simp only [searchLoop, seqApi, hF, if_true, SEARCH_PER_PAGE]
    have hscope : ∀ X : List JVal,
        (if (none : Option String) = some "1" then List.filter itemOwnerIsOrg X else X) = X := by
      intro X; simp
    rw [hscope]
    by_cases hrem : rem = []
    · subst hrem
      simp only [List.take_nil, List.isEmpty_nil, if_true, List.length_nil]
      rw [seqTrace_stop p (M - F.length) 0 (by omega) (by omega)]
      simp
    · have hne : (List.take (100 ⊓ (M - F.length)) rem).isEmpty = false := by
        have h1 : List.take (100 ⊓ (M - F.length)) rem ≠ [] := by
          rw [Ne, List.take_eq_nil_iff]
          push_neg
          exact ⟨by omega, hrem⟩
        cases hE : (List.take (100 ⊓ (M - F.length)) rem).isEmpty
        · rfl
        · exact absurd (List.isEmpty_iff.mp hE) h1
      rw [hne]
      simp only [Bool.false_eq_true, if_false]
      by_cases hshort : rem.length < 100 ⊓ (M - F.length)
      · rw [if_pos (by rw [List.length_take]; omega)]
        rw [List.take_of_length_le (by omega), List.take_of_length_le (by omega)]
        rw [seqTrace_stop p (M - F.length) rem.length (by omega) (by omega)]
      · rw [if_neg (by rw [List.length_take]; omega)]
        have hlentake : (List.take (100 ⊓ (M - F.length)) rem).length
            = 100 ⊓ (M - F.length) := by
          rw [List.length_take]; omega
        by_cases hlast : M - F.length ≤ 100
        · -- this page fills the accumulator to exactly M; the next loop test exits
          rcases fuel with _ | fuel2
          · omega
          · simp only [searchLoop]
            rw [if_neg (by rw [List.length_append, hlentake]; omega)]
            rw [seqTrace_cont p (M - F.length) rem.length (by omega) (by omega)]
            have hz : M - F.length - 100 ⊓ (M - F.length) = 0 := by omega
            rw [hz, seqTrace_zero]
            have hmn : (M - F.length) ⊓ rem.length = 100 ⊓ (M - F.length) := by omega
            rw [hmn]
        · -- a full page of 100; apply the induction hypothesis
          have hpp : 100 ⊓ (M - F.length) = 100 := by omega
          rw [hpp] at hlentake ⊢
          rw [ih (rem.drop 100) (p + 1) (F ++ List.take 100 rem) (some T)
                (tr ++ [(p, 100)]) ws
                (by rw [List.length_append, hlentake]; omega)
                (by rw [List.length_append, hlentake]; omega)]
          rw [seqTrace_cont p (M - F.length) rem.length (by omega) (by omega), hpp]
          have hF2 : (F ++ List.take 100 rem).length = F.length + 100 := by
            rw [List.length_append, hlentake]
          rw [hF2, List.length_drop]
          have h3 : M - (F.length + 100) = M - F.length - 100 := by omega
          rw [h3]
          have h2 : (M - F.length) ⊓ rem.length
              = 100 + ((M - F.length - 100) ⊓ (rem.length - 100)) := by omega
          rw [h2, List.take_add]
          simp [List.append_assoc]

/-- Entry `i` of the request trace is page `p + i` at page size
`min 100 (m - 100 * i)` — i.e. `min(100, remaining-needed)`. -/
theorem seqTrace_getElem (i : Nat) :
    ∀ (p m n : Nat), i < (seqTrace p m n).length →
      (seqTrace p m n)[i]? = some (p + i, min 100 (m - 100 * i)) := by
  induction i with
  | zero =>
    intro p m n h
    by_cases hm : m = 0
    · rw [hm, seqTrace_zero] at h; simp at h
    · rw [seqTrace] at h ⊢
      rw [dif_neg hm] at h ⊢
      simp
  | succ i ihi =>
    intro p m n h
    by_cases hm : m = 0
    · rw [hm, seqTrace_zero] at h; simp at h
    · by_cases hn : n < min 100 m
      · rw [seqTrace_stop p m n hm hn] at h
        simp at h
      · rw [seqTrace_cont p m n hm hn] at h ⊢
        simp only [List.length_cons] at h
        by_cases hm2 : m ≤ 100
        · have hmm : min 100 m = m := by omega
          rw [hmm] at h
          have hz : m - m = 0 := by omega
          rw [hz, seqTrace_zero] at h
          simp at h
        · have h100 : min 100 m = 100 := by omega
          rw [h100] at h ⊢
          rw [List.getElem?_cons_succ]
          rw [ihi (p + 1) (m - 100) (n - 100) (by omega)]
          have e1 : p + 1 + i = p + (i + 1) := by omega
          have e2 : m - 100 - 100 * i = m - 100 * (i + 1) := by omega
          rw [e1, e2]

/-! ## Claims -/

/-- C1: for every `maxResults ≥ 1` and a mock API sequence serving `N` total
items over pages of size at most 100 (no rate limiting, no OrgOnly
filtering), `search_github_code` returns exactly `min N maxResults` result
items (conjuncts 1–3: the outcome exists and its files are the first
`min N maxResults` items), its request trace is `seqTrace` — which by
construction stops as soon as a page returns fewer items than requested or
zero items — (conjunct 4), entry `i` of the trace is page `1 + i` with
per-page size `min 100 (maxResults - collected)` (conjunct 5), and pages are
requested in non-decreasing page order (conjunct 6). -/
theorem search_pagination_correct (T M : Nat) (L : List JVal) (hM : 1 ≤ M) :
    ∃ out, search_github_code (seqApi T) L M none (M + 1) = some out
      ∧ out.files = L.take (min M L.length)
      ∧ out.files.length = min L.length M
      ∧ out.trace = seqTrace 1 M L.length
      ∧ (∀ i, i < out.trace.length →
          out.trace[i]? = some (1 + i, min 100 (M - 100 * i)))
      ∧ (∀ i j : Nat, i ≤ j → ∀ ei ej : Nat × Nat,
          out.trace[i]? = some ei → out.trace[j]? = some ej → ei.1 ≤ ej.1) := by
  have h := searchLoop_seqApi T M (M + 1) L 1 [] none [] []
    (by simpa using hM) (by simp)
  simp only [List.nil_append, List.length_nil, Nat.sub_zero] at h
  refine ⟨_, h, rfl, ?_, rfl, ?_, ?_⟩
  · simp only [List.length_take]
    omega
  · intro i hi
    dsimp only at hi ⊢
    rw [seqTrace_getElem i 1 M L.length hi]
  · intro i j hij ei ej h1 h2
    dsimp only at h1 h2
    have hjlen : j < (seqTrace 1 M L.length).length := by
      by_contra hc
      rw [List.getElem?_eq_none (by omega)] at h2
      exact Option.noConfusion h2
    have hilen : i < (seqTrace 1 M L.length).length := by omega
    rw [seqTrace_getElem i 1 M L.length hilen] at h1
    rw [seqTrace_getElem j 1 M L.length hjlen] at h2
    cases h1; cases h2
    simp only []
    omega

/-- Witness for C1 at `maxResults = 5` against a 3-item server. -/
theorem search_pagination_correct_witness :
    1 ≤ 5 ∧
    (∃ out, search_github_code (seqApi 42) [JVal.num 0, JVal.num 1, JVal.num 2]
        5 none 6 = some out
      ∧ out.files = List.take (min 5 [JVal.num 0, JVal.num 1, JVal.num 2].length)
          [JVal.num 0, JVal.num 1, JVal.num 2]
      ∧ out.files.length = min [JVal.num 0, JVal.num 1, JVal.num 2].length 5
      ∧ out.trace = seqTrace 1 5 [JVal.num 0, JVal.num 1, JVal.num 2].length
      ∧ (∀ i, i < out.trace.length →
          out.trace[i]? = some (1 + i, min 100 (5 - 100 * i)))
      ∧ (∀ i j : Nat, i ≤ j → ∀ ei ej : Nat × Nat,
          out.trace[i]? = some ei → out.trace[j]? = some ej → ei.1 ≤ ej.1)) :=
  ⟨by decide, search_pagination_correct 42 5 [JVal.num 0, JVal.num 1, JVal.num 2] (by decide)⟩

/-- Invariant: with `repo_scope = "1"`, every accumulated item passed the
Organization filter, so every returned file is Organization-owned. -/
theorem searchLoop_orgOnly_invariant {σ : Type} (api : Api σ) (M : Nat) :
    ∀ (fuel : Nat) (s : σ) (p : Nat) (F : List JVal) (lt : Option Nat)
      (tr : List (Nat × Nat)) (ws : List Int) (out : SearchOutcome),
      (∀ it ∈ F, itemOwnerIsOrg it = true) →
      searchLoop api (some "1") M fuel s p F lt tr ws = some out →
      ∀ it ∈ out.files, itemOwnerIsOrg it = true := by
  intro fuel
  induction fuel with
  | zero =>
    intro s p F lt tr ws out hF hrun
    exact absurd hrun (by simp [searchLoop])
  | succ fuel ih =>
    intro s p F lt tr ws out hF hrun
    simp only [searchLoop] at hrun
    split at hrun
    · split at hrun
      · exact absurd hrun (by simp)
      · exact ih _ _ _ _ _ _ _ hF hrun
      · exact absurd hrun (by simp)
      · simp only [if_true] at hrun
        split at hrun
        · cases hrun
          exact hF
        · split at hrun
          · cases hrun
            intro it hit
            rcases List.mem_append.mp hit with h | h
            · exact hF it h
            · exact (List.mem_filter.mp h).2
          · refine ih _ _ _ _ _ _ _ ?_ hrun
            intro it hit
            rcases List.mem_append.mp hit with h | h
            · exact hF it h
            · exact (List.mem_filter.mp h).2
    · split at hrun
      · cases hrun
        exact hF
      · exact absurd hrun (by simp)

/-- One loop iteration on a 403: record the request and the computed wait,
retry the same page. -/
theorem searchLoop_step_rate {σ : Type} (api : Api σ) (rs : Option String)
    (M fuel : Nat) (s : σ) (p : Nat) (F : List JVal) (lt : Option Nat)
    (tr : List (Nat × Nat)) (ws : List Int) (s₂ : σ) (rh : Option Int) (n₁ n₂ : Int)
    (hlt : F.length < M)
    (hapi : api s p (min SEARCH_PER_PAGE (M - F.length)) = some (s₂, ApiResponse.rateLimited rh n₁ n₂)) :
    searchLoop api rs M (fuel + 1) s p F lt tr ws =
      searchLoop api rs M fuel s₂ p F lt
        (tr ++ [(p, min SEARCH_PER_PAGE (M - F.length))])
        (ws ++ [max (rh.getD (n₁ + 60) - n₂) RETRY_DELAY_INITIAL]) := by
  simp only [searchLoop, hlt, if_true, hapi]

/-- One loop iteration on an empty page: stop with the current accumulator
and this page's total count. -/
theorem searchLoop_step_empty {σ : Type} (api : Api σ) (rs : Option String)
    (M fuel : Nat) (s : σ) (p : Nat) (F : List JVal) (lt : Option Nat)
    (tr : List (Nat × Nat)) (ws : List Int) (s₂ : σ) (items : List JVal) (tc : Nat)
    (hlt : F.length < M)
    (hapi : api s p (min SEARCH_PER_PAGE (M - F.length)) = some (s₂, ApiResponse.success items tc))
    (hemp : items.isEmpty = true) :
    searchLoop api rs M (fuel + 1) s p F lt tr ws =
      some ⟨F, tc, tr ++ [(p, min SEARCH_PER_PAGE (M - F.length))], ws⟩ := by
  simp only [searchLoop, hlt, if_true, hapi, hemp]

/-- One loop iteration on a page shorter than requested: accumulate (filtered
under OrgOnly) and stop with this page's total count. -/
theorem searchLoop_step_short {σ : Type} (api : Api σ) (rs : Option String)
    (M fuel : Nat) (s : σ) (p : Nat) (F : List JVal) (lt : Option Nat)
    (tr : List (Nat × Nat)) (ws : List Int) (s₂ : σ) (items : List JVal) (tc : Nat)
    (hlt : F.length < M)
    (hapi : api s p (min SEARCH_PER_PAGE (M - F.length)) = some (s₂, ApiResponse.success items tc))
    (hne : items.isEmpty = false)
    (hshort : items.length < min SEARCH_PER_PAGE (M - F.length)) :
    searchLoop api rs M (fuel + 1) s p F lt tr ws =
      some ⟨F ++ (if rs = some "1" then items.filter itemOwnerIsOrg else items), tc,
            tr ++ [(p, min SEARCH_PER_PAGE (M - F.length))], ws⟩ := by
  simp only [searchLoop, hlt, if_true, hapi, hne, Bool.false_eq_true, if_false,
    hshort]

/-- One loop iteration on a full page: accumulate (filtered under OrgOnly),
remember this page's total count, and advance to the next page. -/
theorem searchLoop_step_full {σ : Type} (api : Api σ) (rs : Option String)
    (M fuel : Nat) (s : σ) (p : Nat) (F : List JVal) (lt : Option Nat)
    (tr : List (Nat × Nat)) (ws : List Int) (s₂ : σ) (items : List JVal) (tc : Nat)
    (hlt : F.length < M)
    (hapi : api s p (min SEARCH_PER_PAGE (M - F.length)) = some (s₂, ApiResponse.success items tc))
    (hne : items.isEmpty = false)
    (hfull : ¬ items.length < min SEARCH_PER_PAGE (M - F.length)) :
    searchLoop api rs M (fuel + 1) s p F lt tr ws =
      searchLoop api rs M fuel s₂ (p + 1)
        (F ++ (if rs = some "1" then items.filter itemOwnerIsOrg else items))
        (some tc) (tr ++ [(p, min SEARCH_PER_PAGE (M - F.length))]) ws := by
  simp only [searchLoop, hlt, if_true, hapi, hne, Bool.false_eq_true, if_false,
    hfull]

/-- Two-page OrgOnly run: page 1 is full (forcing page 2), page 2 is short
(ending the search); only Organization-owned items are returned, and the
returned total count is the SECOND (last successful) page's `total_count`,
unaffected by the dropped User-owned items. -/
theorem c2_scenario (items1 : List JVal) (t1 : Nat) (items2 : List JVal) (t2 M : Nat)
    (hM : 1 ≤ M)
    (h1 : items1.length = min 100 M)
    (hk : (items1.filter itemOwnerIsOrg).length < M)
    (h2 : items2.length < min 100 (M - (items1.filter itemOwnerIsOrg).length)) :
    search_github_code scriptApi
        [ApiResponse.success items1 t1, ApiResponse.success items2 t2] M (some "1") 2
      = some ⟨items1.filter itemOwnerIsOrg ++ items2.filter itemOwnerIsOrg, t2,
              [(1, min 100 M), (2, min 100 (M - (items1.filter itemOwnerIsOrg).length))], []⟩ := by
  have hne1 : items1.isEmpty = false := by
    cases hi : items1.isEmpty
    · rfl
    · rw [List.isEmpty_iff] at hi
      rw [hi] at h1
      simp at h1
      omega
  unfold search_github_code
  rw [searchLoop_step_full scriptApi (some "1") M 1
        [ApiResponse.success items1 t1, ApiResponse.success items2 t2] 1 [] none [] []
        [ApiResponse.success items2 t2] items1 t1
        (by simpa using hM) (by simp [scriptApi]) hne1
        (by simp only [SEARCH_PER_PAGE, List.length_nil, Nat.sub_zero]; omega)]
  simp only [List.nil_append, if_true, List.length_nil, Nat.sub_zero]
  by_cases hi2 : items2 = []
  · subst hi2
    rw [searchLoop_step_empty scriptApi (some "1") M 0
          [ApiResponse.success [] t2] 2 (List.filter itemOwnerIsOrg items1) (some t1)
          [(1, min SEARCH_PER_PAGE M)] [] [] [] t2
          hk (by simp [scriptApi]) rfl]
    simp [SEARCH_PER_PAGE]
  · have hne2 : items2.isEmpty = false := by
      cases hi : items2.isEmpty
      · rfl
      · exact absurd (List.isEmpty_iff.mp hi) hi2
    rw [searchLoop_step_short scriptApi (some "1") M 0
          [ApiResponse.success items2 t2] 2 (List.filter itemOwnerIsOrg items1) (some t1)
          [(1, min SEARCH_PER_PAGE M)] [] [] items2 t2
          hk (by simp [scriptApi]) hne2
          (by simp only [SEARCH_PER_PAGE]; omega)]
    simp [SEARCH_PER_PAGE]

/-- C2: with `repo_scope = OrgOnly ("1")`, (1) every result returned by any
run of `search_github_code` has `repository.owner.type = "Organization"`;
(2) in a two-page mock run, the returned files are exactly the
Organization-owned items of each page (User-owned items are dropped from the
list and hence its count), while the returned `totalCount` is the raw
`total_count` field of the last successful page, unaffected by the
filtering. -/
theorem search_orgOnly_filtering :
    (∀ (σ : Type) (api : Api σ) (s₀ : σ) (M fuel : Nat) (out : SearchOutcome),
        search_github_code api s₀ M (some "1") fuel = some out →
        ∀ it ∈ out.files, itemOwnerIsOrg it = true)
    ∧ (∀ (items1 : List JVal) (t1 : Nat) (items2 : List JVal) (t2 M : Nat),
        1 ≤ M → items1.length = min 100 M →
        (items1.filter itemOwnerIsOrg).length < M →
        items2.length < min 100 (M - (items1.filter itemOwnerIsOrg).length) →
        search_github_code scriptApi
            [ApiResponse.success items1 t1, ApiResponse.success items2 t2] M (some "1") 2
          = some ⟨items1.filter itemOwnerIsOrg ++ items2.filter itemOwnerIsOrg, t2,
                  [(1, min 100 M),
                   (2, min 100 (M - (items1.filter itemOwnerIsOrg).length))], []⟩) := by
  constructor
  · intro σ api s₀ M fuel out hrun
    exact searchLoop_orgOnly_invariant api M fuel s₀ 1 [] none [] [] out (by simp) hrun
  · exact c2_scenario

/-- Witness for C2: ten mixed-ownership items on page 1 and two on page 2,
`maxResults = 10`. -/
theorem search_orgOnly_filtering_witness :
    (search_github_code scriptApi
        [ApiResponse.success c2Items1 100, ApiResponse.success c2Items2 99] 10 (some "1") 2
      = some ⟨c2Items1.filter itemOwnerIsOrg ++ c2Items2.filter itemOwnerIsOrg, 99,
              [(1, min 100 10), (2, min 100 (10 - (c2Items1.filter itemOwnerIsOrg).length))], []⟩)
    ∧ (c2Items1.filter itemOwnerIsOrg ++ c2Items2.filter itemOwnerIsOrg).all itemOwnerIsOrg
        = true := by
  have hrun := search_orgOnly_filtering.2 c2Items1 100 c2Items2 99 10
      (by decide) (by decide) (by decide) (by decide)
  refine ⟨hrun, ?_⟩
  have hall := search_orgOnly_filtering.1 (List ApiResponse) scriptApi
      [ApiResponse.success c2Items1 100, ApiResponse.success c2Items2 99] 10 2 _ hrun
  rw [List.all_eq_true]
  intro it hit
  exact hall it hit

/-- C3: a 403 rate-limit response makes the loop wait
`max (reset - now) RETRY_DELAY_INITIAL` seconds (with `reset` the parsed
`X-RateLimit-Reset` header, defaulting to `now + 60`) and retry the SAME
page — the trace shows page 1 requested twice at the same size — and the
retried page's items appear exactly once in the result; the run succeeds
(returns `some`), so the rate limit is never surfaced as a failure. -/
theorem rate_limit_retry (rh : Option Int) (n₁ n₂ : Int) (items : List JVal) (tc M : Nat)
    (hM : 1 ≤ M) (hlen : items.length < min 100 M) :
    search_github_code scriptApi
        [ApiResponse.rateLimited rh n₁ n₂, ApiResponse.success items tc] M none 2
      = some ⟨items, tc, [(1, min 100 M), (1, min 100 M)],
              [max (rh.getD (n₁ + 60) - n₂) RETRY_DELAY_INITIAL]⟩ := by
  unfold search_github_code
  rw [searchLoop_step_rate scriptApi none M 1
        [ApiResponse.rateLimited rh n₁ n₂, ApiResponse.success items tc] 1 [] none [] []
        [ApiResponse.success items tc] rh n₁ n₂
        (by simpa using hM) (by simp [scriptApi])]
  simp only [List.nil_append, List.length_nil, Nat.sub_zero]
  by_cases hi : items = []
  · subst hi
    rw [searchLoop_step_empty scriptApi none M 0 [ApiResponse.success [] tc] 1 [] none
          [(1, min SEARCH_PER_PAGE M)]
          [max (rh.getD (n₁ + 60) - n₂) RETRY_DELAY_INITIAL] [] [] tc
          (by simpa using hM) (by simp [scriptApi]) rfl]
    simp [SEARCH_PER_PAGE]
  · have hne : items.isEmpty = false := by
      cases he : items.isEmpty
      · rfl
      · exact absurd (List.isEmpty_iff.mp he) hi
    rw [searchLoop_step_short scriptApi none M 0 [ApiResponse.success items tc] 1 [] none
          [(1, min SEARCH_PER_PAGE M)]
          [max (rh.getD (n₁ + 60) - n₂) RETRY_DELAY_INITIAL] [] items tc
          (by simpa using hM) (by simp [scriptApi]) hne
          (by simp only [SEARCH_PER_PAGE, List.length_nil, Nat.sub_zero]; omega)]
    simp [SEARCH_PER_PAGE]

/-- Witness for C3: reset header 1000, clock at 990, one item served on
retry. -/
theorem rate_limit_retry_witness :
    1 ≤ 5 ∧ [JVal.num 7].length < min 100 5 ∧
    search_github_code scriptApi
        [ApiResponse.rateLimited (some 1000) 0 990, ApiResponse.success [JVal.num 7] 9]
        5 none 2
      = some ⟨[JVal.num 7], 9, [(1, min 100 5), (1, min 100 5)],
              [max ((some (1000 : Int)).getD (0 + 60) - 990) RETRY_DELAY_INITIAL]⟩ :=
  ⟨by decide, by decide,
   rate_limit_retry (some 1000) 0 990 [JVal.num 7] 9 5 (by decide) (by decide)⟩

/-- Closed form of the fragment-joining loop: the loop's appends amount to a
`filterMap` that keeps exactly the fragments that are present and non-empty
BEFORE stripping/trimming. -/
theorem extractFragmentsGo_eq (tms : List JVal) :
    ∀ acc : List String, extractFragmentsGo acc tms = acc ++ extractFragmentsAmended tms := by
  induction tms with
  | nil => intro acc; simp [extractFragmentsGo, extractFragmentsAmended]
  | cons tm rest ih =>
    intro acc
    rcases hj : jget tm "fragment" with _ | v
    · simp [extractFragmentsGo, extractFragmentsAmended, hj, ih]
    · cases v with
      | str s =>
        by_cases hs : s = ""
        · simp [extractFragmentsGo, extractFragmentsAmended, hj, hs, ih]
        · simp [extractFragmentsGo, extractFragmentsAmended, hj, hs, ih]
      | null => simp [extractFragmentsGo, extractFragmentsAmended, hj, ih]
      | boolean b => simp [extractFragmentsGo, extractFragmentsAmended, hj, ih]
      | num n => simp [extractFragmentsGo, extractFragmentsAmended, hj, ih]
      | arr l => simp [extractFragmentsGo, extractFragmentsAmended, hj, ih]
      | obj fs => simp [extractFragmentsGo, extractFragmentsAmended, hj, ih]

/-- C4 counterexample: for text matches `["a", " "]` the code joins the
whitespace-only fragment as an EMPTY segment (`"a\n---\n"`), whereas the
claim's algorithm (trim, then skip empties) would drop it and produce `"a"`
— so a whitespace-only raw fragment does contribute to the joined field. -/
theorem fragment_whitespace_counterexample :
    itemFragment c4Item = "a\n---\n"
    ∧ itemFragmentClaimed c4Item = "a"
    ∧ itemFragment c4Item ≠ itemFragmentClaimed c4Item := by
  refine ⟨rfl, rfl, ?_⟩
  decide

/-- C4 amended: the fragment field joins, with `"\n---\n"`, the fragments
that are present and non-empty BEFORE processing, each carriage-return
stripped and then trimmed; in particular the whitespace-only fragment of
`c4Item` contributes an empty segment (adjacent separators), not nothing. -/
theorem fragment_extraction_amended :
    (∀ tms : List JVal, extractFragmentsGo [] tms = extractFragmentsAmended tms)
    ∧ (∀ item : JVal, itemFragment item
        = pyJoin "\n---\n" (extractFragmentsAmended (getTextMatches item)))
    ∧ itemFragment c4Item = "a\n---\n" := by
  refine ⟨?_, ?_, rfl⟩
  · intro tms
    simpa using extractFragmentsGo_eq tms []
  · intro item
    unfold itemFragment
    rw [extractFragmentsGo_eq (getTextMatches item) []]
    simp

/-- Closed form of the line-filtering loop: keep the lines whose lowered form
contains the lowered pattern, each stripped. -/
theorem extractPatternLinesGo_eq (pattern : String) (lines : List String) :
    ∀ acc : List String, extractPatternLinesGo pattern acc lines
      = acc ++ (lines.filter (fun l => pyIn (pyLower pattern) (pyLower l))).map pyStrip := by
  induction lines with
  | nil => intro acc; simp [extractPatternLinesGo]
  | cons line rest ih =>
    intro acc
    by_cases hl : pyIn (pyLower pattern) (pyLower line) = true
    · simp [extractPatternLinesGo, hl, ih]
    · simp [extractPatternLinesGo, hl, ih]

/-- C5: (1) a line of the fragment is kept exactly when the pattern occurs
in it case-insensitively, and kept lines are emitted trimmed, in order;
(2) each input row contributes one output row per kept line, holding the
row's cells in fieldname order plus the matching line; (3) for fragment
`"alpha\nBETA\ngamma"` and pattern `"beta"`, exactly one row is produced,
with matching line `"BETA"`. -/
theorem filtered_lines_correct :
    (∀ fragment pattern : String,
        extract_pattern_lines_from_fragment fragment pattern
          = ((splitlines fragment).filter
              (fun l => pyIn (pyLower pattern) (pyLower l))).map pyStrip)
    ∧ (∀ (fieldnames : List String) (pattern : String)
          (row : List (String × String)) (rest : List (List (String × String))),
        filterRowsGo fieldnames pattern (row :: rest)
          = (extract_pattern_lines_from_fragment (rowGet row "fragment" "") pattern).map
              (fun line => fieldnames.map (fun col => rowGet row col "") ++ [line])
            ++ filterRowsGo fieldnames pattern rest)
    ∧ filter_fragments_by_pattern (some [["fragment"], ["alpha\nBETA\ngamma"]]) "beta"
        = [["fragment", "matching_line"], ["alpha\nBETA\ngamma", "BETA"]] := by
  refine ⟨?_, ?_, ?_⟩
  · intro fragment pattern
    unfold extract_pattern_lines_from_fragment
    simpa using extractPatternLinesGo_eq pattern (splitlines fragment) []
  · intro fieldnames pattern row rest
    rfl
  · decide

/-- The export writes one row per result. -/
theorem writeRowsGo_length (columns : List String) (results : List JVal) :
    (writeRowsGo columns results).length = results.length := by
  induction results with
  | nil => rfl
  | cons item rest ih => simp [writeRowsGo, ih]

/-- Row `i` of the export body is the cell list of result `i`. -/
theorem writeRowsGo_getElem (columns : List String) :
    ∀ (results : List JVal) (i : Nat),
      (writeRowsGo columns results)[i]?
        = (results[i]?).map (fun item => columns.map fun col => csvCell (get_nested_value item col)) := by
  intro results
  induction results with
  | nil => intro i; simp [writeRowsGo]
  | cons item rest ih =>
    intro i
    cases i with
    | zero => simp [writeRowsGo]
    | succ j => simp [writeRowsGo, ih j]

/-- Looking a key up in a header-zipped row recovers that key's cell. -/
theorem zip_self_lookup (f : String → String) :
    ∀ (ks : List String) (k : String), k ∈ ks →
      (ks.zip (ks.map f)).lookup k = some (f k) := by
  intro ks
  induction ks with
  | nil => intro k hk; simp at hk
  | cons k₂ rest ih =>
    intro k hk
    simp only [List.map_cons, List.zip_cons_cons, List.lookup]
    by_cases he : k = k₂
    · subst he
      simp
    · have hbeq : (k == k₂) = false := by
        simp [he]
      rw [hbeq]
      rcases List.mem_cons.mp hk with h | h
      · exact absurd h he
      · exact ih k h

/-- C6: the full export (1) always writes the header, even for an empty
result list, (2) writes exactly one row per result, (3) fills each row cell
with the dotted-path nested lookup of that result (a total function — no
lookup ever throws), and (4) renders any unresolvable nested field as the
literal empty string. -/
theorem full_export_robust :
    (∀ (results : List JVal) (columns : List String),
        (save_results_to_csv results columns).head? = some columns)
    ∧ (∀ (results : List JVal) (columns : List String),
        (save_results_to_csv results columns).length = results.length + 1)
    ∧ (∀ (results : List JVal) (columns : List String) (i : Nat) (item : JVal),
        results[i]? = some item →
        (save_results_to_csv results columns)[i + 1]?
          = some (columns.map fun col => csvCell (get_nested_value item col)))
    ∧ (∀ (item : JVal) (col : String),
        get_nested_value item col = none → csvCell (get_nested_value item col) = "") := by
  refine ⟨fun results columns => rfl, ?_, ?_, ?_⟩
  · intro results columns
    simp [save_results_to_csv, writeRowsGo_length]
  · intro results columns i item hi
    simp [save_results_to_csv, writeRowsGo_getElem, hi]
  · intro item col hnone
    rw [hnone]
    rfl

/-- Witness for C6: a User-owned item whose `fragment` field is absent. -/
theorem full_export_robust_witness :
    ([ownerItem "User" 3] : List JVal)[0]? = some (ownerItem "User" 3) ∧
    (save_results_to_csv [ownerItem "User" 3] gh_code_search_columns)[0 + 1]?
      = some (gh_code_search_columns.map fun col =>
          csvCell (get_nested_value (ownerItem "User" 3) col)) ∧
    get_nested_value (ownerItem "User" 3) "fragment" = none ∧
    csvCell (get_nested_value (ownerItem "User" 3) "fragment") = "" :=
  ⟨rfl,
   full_export_robust.2.2.1 [ownerItem "User" 3] gh_code_search_columns 0
     (ownerItem "User" 3) rfl,
   rfl,
   full_export_robust.2.2.2 (ownerItem "User" 3) "fragment" rfl⟩

/-- C7: re-reading the full export the way the filter stage does (header
zipped onto each row, then keyed lookup) reproduces, for every result and
every declared column, exactly the cell value derived from the original
record — and the empty string for any field absent in the source record. -/
theorem full_export_round_trip :
    ∀ (results : List JVal) (i : Nat) (item : JVal) (col : String),
      results[i]? = some item → col ∈ gh_code_search_columns →
      (((csvRows (save_results_to_csv results gh_code_search_columns))[i]?).map
          (fun row => rowGet row col "")
        = some (csvCell (get_nested_value item col)))
      ∧ (get_nested_value item col = none →
          ((csvRows (save_results_to_csv results gh_code_search_columns))[i]?).map
            (fun row => rowGet row col "") = some "") := by
  intro results i item col hi hcol
  have hmain : ((csvRows (save_results_to_csv results gh_code_search_columns))[i]?).map
      (fun row => rowGet row col "") = some (csvCell (get_nested_value item col)) := by
    have h1 : csvRows (save_results_to_csv results gh_code_search_columns)
        = (writeRowsGo gh_code_search_columns results).map
            (fun record => gh_code_search_columns.zip record) := by
      rfl
    rw [h1]
    rw [List.getElem?_map, writeRowsGo_getElem]
    rw [hi]
    simp only [Option.map_some']
    unfold rowGet
    rw [zip_self_lookup (fun c => csvCell (get_nested_value item c))
          gh_code_search_columns col hcol]
  exact ⟨hmain, fun hnone => by rw [hmain, hnone]; rfl⟩

/-- Witness for C7: the absent `repository.owner.login` field of `c7Item`
reads back as the empty string. -/
theorem full_export_round_trip_witness :
    ([c7Item] : List JVal)[0]? = some c7Item ∧
    "repository.owner.login" ∈ gh_code_search_columns ∧
    get_nested_value c7Item "repository.owner.login" = none ∧
    ((csvRows (save_results_to_csv [c7Item] gh_code_search_columns))[0]?).map
        (fun row => rowGet row "repository.owner.login" "") = some "" :=
  ⟨rfl, by decide, rfl,
   (full_export_round_trip [c7Item] 0 c7Item "repository.owner.login" rfl (by decide)).2 rfl⟩

/-- When no row yields a matching line, the filtered body is empty. -/
theorem filterRowsGo_nil (fieldnames : List String) (pattern : String) :
    ∀ rows : List (List (String × String)),
      (∀ row ∈ rows, extract_pattern_lines_from_fragment (rowGet row "fragment" "") pattern = []) →
      filterRowsGo fieldnames pattern rows = [] := by
  intro rows
  induction rows with
  | nil => intro _; rfl
  | cons row rest ih =>
    intro h
    simp only [filterRowsGo]
    rw [h row (List.mem_cons_self row rest)]
    simp only [List.map_nil, List.nil_append]
    exact ih (fun r hr => h r (List.mem_cons_of_mem row hr))

/-- C8: the filtered export (1) always writes the header row — the input's
fieldnames plus `matching_line`, with `[]` fieldnames when the input is
missing/unparsable, (2) on a missing or unparsable input file recovers by
producing exactly the header-only output `[["matching_line"]]` (a total
function — the run is not aborted), and (3) when no line of any row matches,
still produces the header-only output. -/
theorem filtered_export_robust :
    (∀ (pattern : String) (input : Option (List (List String))),
        (filter_fragments_by_pattern input pattern).head?
          = some ((match input with
                   | none => ([] : List String)
                   | some file => csvFieldnames file) ++ ["matching_line"]))
    ∧ (∀ pattern : String, filter_fragments_by_pattern none pattern = [["matching_line"]])
    ∧ (∀ (pattern : String) (file : List (List String)),
        (∀ row ∈ csvRows file,
          extract_pattern_lines_from_fragment (rowGet row "fragment" "") pattern = []) →
        filter_fragments_by_pattern (some file) pattern
          = [csvFieldnames file ++ ["matching_line"]]) := by
  refine ⟨?_, fun pattern => rfl, ?_⟩
  · intro pattern input
    cases input with
    | none => rfl
    | some file => rfl
  · intro pattern file h
    show (csvFieldnames file ++ ["matching_line"])
        :: filterRowsGo (csvFieldnames file) pattern (csvRows file)
      = [csvFieldnames file ++ ["matching_line"]]
    rw [filterRowsGo_nil (csvFieldnames file) pattern (csvRows file) h]

/-- Witness for C8: a missing input, and a one-row input with no matching
lines. -/
theorem filtered_export_robust_witness :
    filter_fragments_by_pattern none "x" = [["matching_line"]] ∧
    filter_fragments_by_pattern (some [["fragment"], ["hello"]]) "zzz"
      = [csvFieldnames [["fragment"], ["hello"]] ++ ["matching_line"]] :=
  ⟨filtered_export_robust.2.1 "x",
   filtered_export_robust.2.2 "zzz" [["fragment"], ["hello"]] (by decide)⟩

/-- The organization loop emits exactly two events per organization. -/
theorem cloudOrgLoop_length (searchFn : String → List JVal × Nat) :
    ∀ orgs : List String, (cloudOrgLoop searchFn orgs).length = 2 * orgs.length := by
  intro orgs
  induction orgs with
  | nil => rfl
  | cons org rest ih => simp [cloudOrgLoop, ih]; omega

/-- Events `2i` and `2i+1` of the organization loop are organization `i`'s
search completion and its summary-line append. -/
theorem cloudOrgLoop_getElem (searchFn : String → List JVal × Nat) :
    ∀ (orgs : List String) (i : Nat) (org : String), orgs[i]? = some org →
      (cloudOrgLoop searchFn orgs)[2 * i]?
          = some (RunEvent.orgSearchCompleted org (searchFn org).1.length (searchFn org).2)
      ∧ (cloudOrgLoop searchFn orgs)[2 * i + 1]?
          = some (RunEvent.summaryWrite (orgSummaryLine org (searchFn org).2)) := by
  intro orgs
  induction orgs with
  | nil => intro i org h; simp at h
  | cons o rest ih =>
    intro i org h
    cases i with
    | zero =>
      simp only [List.getElem?_cons_zero, Option.some.injEq] at h
      subst h
      have e0 : 2 * 0 = 0 := by norm_num
      have e1 : 2 * 0 + 1 = 1 := by norm_num
      rw [e0, e1]
      refine ⟨rfl, ?_⟩
      simp [cloudOrgLoop]
    | succ j =>
      simp only [List.getElem?_cons_succ] at h
      have h2 : 2 * (j + 1) = 2 * j + 1 + 1 := by omega
      have h3 : 2 * (j + 1) + 1 = (2 * j + 1 + 1) + 1 := by omega
      rw [h3, h2]
      simp only [cloudOrgLoop, List.getElem?_cons_succ]
      exact ih j org h

/-- C9 amended: in Cloud mode, (1) immediately after organization `i`'s
search completes (event `2i`), its occurrence-count line is appended to the
summary (event `2i + 1`), so per-organization lines appear in organization
order, interleaved with nothing; (2) after the whole loop, the appended
configuration block records the pattern, the file filters, the instance, the
HARDCODED scope description ("Organization Repositories only", regardless of
the actual scope) and the fetched-result count — with no timestamp line and
no total-occurrence aggregate (see `cloudConfigLines`). -/
theorem cloud_summary_amended (searchFn : String → List JVal × Nat)
    (orgs : List String) (pattern file_type : String) :
    (∀ (i : Nat) (org : String), orgs[i]? = some org →
      (cloudRunTrace searchFn orgs pattern file_type)[2 * i]?
          = some (RunEvent.orgSearchCompleted org (searchFn org).1.length (searchFn org).2)
      ∧ (cloudRunTrace searchFn orgs pattern file_type)[2 * i + 1]?
          = some (RunEvent.summaryWrite (orgSummaryLine org (searchFn org).2)))
    ∧ (cloudRunTrace searchFn orgs pattern file_type).drop (2 * orgs.length)
        = (cloudConfigLines pattern file_type (cloudResults searchFn orgs).length).map
            RunEvent.summaryWrite := by
  constructor
  · intro i org h
    have hi : i < orgs.length := by
      by_contra hc
      rw [List.getElem?_eq_none (by omega)] at h
      exact Option.noConfusion h
    have hlen := cloudOrgLoop_length searchFn orgs
    have hboth := cloudOrgLoop_getElem searchFn orgs i org h
    unfold cloudRunTrace
    constructor
    · rw [List.getElem?_append, if_pos (by omega)]
      exact hboth.1
    · rw [List.getElem?_append, if_pos (by omega)]
      exact hboth.2
  · unfold cloudRunTrace
    rw [← cloudOrgLoop_length searchFn orgs]
    exact List.drop_left _ _

/-- C9 counterexample: the cloud branch actually runs with scope "2" (All
Repositories — `onPremScopeDesc` names what the code itself calls that
scope), yet its configuration block contains the line "Repository Scope:
Organization Repositories only"; moreover no configuration line mentions a
timestamp and none mentions the total-occurrence count — refuting the
claim that the block records the actually selected scope, fetched-vs-total
counts, and timestamp. -/
theorem cloud_summary_counterexample :
    (get_github_instance_scope "1" "1").2 = "2"
    ∧ onPremScopeDesc (get_github_instance_scope "1" "1").2
        = "All Repositories including User Repositories"
    ∧ onPremScopeDesc (get_github_instance_scope "1" "1").2
        ≠ "Organization Repositories only"
    ∧ "Repository Scope: Organization Repositories only\n" ∈ cloudConfigLines "p" "" 0
    ∧ (cloudConfigLines "p" "" 0).all (fun l => !(pyIn "Timestamp" l)) = true
    ∧ (cloudConfigLines "p" "" 0).all (fun l => !(pyIn "Total Occurrences" l)) = true := by
  exact ⟨rfl, rfl, by decide, by decide, by decide, by decide⟩

/-- Witness for C9 at a concrete two-organization run. -/
theorem cloud_summary_amended_witness :
    (["alpha", "beta"] : List String)[1]? = some "beta" ∧
    (cloudRunTrace (fun _ => ([JVal.num 1], 5)) ["alpha", "beta"] "p" "py")[2 * 1]?
        = some (RunEvent.orgSearchCompleted "beta" 1 5) ∧
    (cloudRunTrace (fun _ => ([JVal.num 1], 5)) ["alpha", "beta"] "p" "py")[2 * 1 + 1]?
        = some (RunEvent.summaryWrite (orgSummaryLine "beta" 5)) := by
  have h := (cloud_summary_amended (fun _ => ([JVal.num 1], 5)) ["alpha", "beta"] "p" "py").1
      1 "beta" rfl
  exact ⟨rfl, h.1, h.2⟩

/-- Any `repo_scope` other than `"1"` leaves the loop's behaviour identical
to no scope at all: the Organization filter is never applied. -/
theorem searchLoop_scope_noFilter {σ : Type} (api : Api σ) (M : Nat)
    (rs : Option String) (hrs : rs ≠ some "1") :
    ∀ (fuel : Nat) (s : σ) (p : Nat) (F : List JVal) (lt : Option Nat)
      (tr : List (Nat × Nat)) (ws : List Int),
      searchLoop api rs M fuel s p F lt tr ws
        = searchLoop api none M fuel s p F lt tr ws := by
  intro fuel
  induction fuel with
  | zero => intro s p F lt tr ws; rfl
  | succ fuel ih =>
    intro s p F lt tr ws
    simp only [searchLoop]
    by_cases hlt : F.length < M
    · simp only [hlt, if_true]
      cases hapi : api s p (min SEARCH_PER_PAGE (M - F.length)) with
      | none => rfl
      | some pr =>
        obtain ⟨s₂, resp⟩ := pr
        cases resp with
        | rateLimited rh n₁ n₂ =>
          dsimp only
          exact ih s₂ p F lt _ _
        | httpError st => rfl
        | success items tc =>
          dsimp only
          by_cases hemp : items.isEmpty = true
          · rw [if_pos hemp, if_pos hemp]
          · rw [if_neg hemp, if_neg hemp]
            rw [if_neg hrs, if_neg (show ¬ (none : Option String) = some "1" by simp)]
            by_cases hshort : items.length < min SEARCH_PER_PAGE (M - F.length)
            · rw [if_pos hshort, if_pos hshort]
            · rw [if_neg hshort, if_neg hshort]
              exact ih s₂ (p + 1) (F ++ items) (some tc) _ _
    · simp only [hlt, if_false]

/-- C10: (1) instance choice "1" (Cloud) always yields `repo_scope = "2"`,
whatever the on-prem scope answer would have been — the user's scope choice
is never consulted; (2) a search with scope "2" behaves identically to a
search with no scope, for every API, so the OrgOnly owner-type filter is
never applied in cloud searches; (3) concretely, a page's items are all
kept under scope "2" regardless of their `repository.owner.type`. -/
theorem cloud_scope_always_all :
    (∀ c : String, get_github_instance_scope "1" c = ("cloud", "2"))
    ∧ (∀ (σ : Type) (api : Api σ) (s₀ : σ) (M fuel : Nat),
        search_github_code api s₀ M (some "2") fuel
          = search_github_code api s₀ M none fuel)
    ∧ (∀ (items : List JVal) (tc M : Nat), 1 ≤ M → items.length < min 100 M →
        search_github_code scriptApi [ApiResponse.success items tc] M (some "2") 1
          = some ⟨items, tc, [(1, min 100 M)], []⟩) := by
  refine ⟨fun c => rfl, ?_, ?_⟩
  · intro σ api s₀ M fuel
    exact searchLoop_scope_noFilter api M (some "2") (by simp) fuel s₀ 1 [] none [] []
  · intro items tc M hM hlen
    unfold search_github_code
    by_cases hi : items = []
    · subst hi
      rw [searchLoop_step_empty scriptApi (some "2") M 0 [ApiResponse.success [] tc] 1 []
            none [] [] [] [] tc (by simpa using hM) (by simp [scriptApi]) rfl]
      simp [SEARCH_PER_PAGE]
    · have hne : items.isEmpty = false := by
        cases he : items.isEmpty
        · rfl
        · exact absurd (List.isEmpty_iff.mp he) hi
      rw [searchLoop_step_short scriptApi (some "2") M 0 [ApiResponse.success items tc] 1 []
            none [] [] [] items tc (by simpa using hM) (by simp [scriptApi]) hne
            (by simp only [SEARCH_PER_PAGE, List.length_nil, Nat.sub_zero]; omega)]
      simp [SEARCH_PER_PAGE]

/-- Witness for C10: a User-owned item is kept under cloud's scope "2". -/
theorem cloud_scope_always_all_witness :
    get_github_instance_scope "1" "1" = ("cloud", "2") ∧
    1 ≤ 5 ∧ [ownerItem "User" 12].length < min 100 5 ∧
    search_github_code scriptApi [ApiResponse.success [ownerItem "User" 12] 3] 5 (some "2") 1
      = some ⟨[ownerItem "User" 12], 3, [(1, min 100 5)], []⟩ :=
  ⟨cloud_scope_always_all.1 "1", by decide, by decide,
   cloud_scope_always_all.2.2 [ownerItem "User" 12] 3 5 (by decide) (by decide)⟩
